import Mathlib

/-!
Shallow embedding of `private_pypi/utils.py` (pywharf/private-pypi-core):
process-safe state-access primitives (lock-guarded file read/write/copy,
a lock busy-probe, a per-call-locked streaming write sink), git blob
hashing, and the Fernet-based secret codec.

External effects are made explicit:
* the filesystem is a map from paths to optional text content;
* whether a `FileLock(lock_path, timeout=...)` acquisition succeeds within
  its wait policy is decided by the environment (contention is external),
  so it enters each operation as an explicit Boolean outcome;
* third-party library primitives (`toml`, `hashlib.sha1`, `json`, `zlib`,
  `Fernet`, `base64`) are modelled either concretely on the fragment this
  layer exercises or as parameters constrained by their documented laws.
-/

/-- The filesystem visible to this layer: each path either holds text
content or does not exist (`os.path.exists` is `(files p).isSome`). -/
structure FS where
  files : String → Option String

/-- The empty filesystem (no file exists). -/
def FS.empty : FS := ⟨fun _ => none⟩

/-- `open(path, 'w'); write(text)`: overwrite the entire content at
`path`, creating the file if absent. -/
def FS.writeFile (fs : FS) (path text : String) : FS :=
  ⟨fun p => if p = path then some text else fs.files p⟩

/-- Embedding of `locked_read_file(lock_path, file_path, timeout)`
(utils.py lines 28-36).  `acquired` is the environment-decided outcome of
`FileLock(lock_path, timeout=timeout)`: `false` means the acquisition
raised `TimeoutError`, which the function catches, returning `(False, '')`.
With the lock held it returns `(True, None)` when `file_path` does not
exist and `(True, content)` otherwise.  `none` models Python `None`
(absent); `some ""` models the empty string `''`. -/
def locked_read_file (acquired : Bool) (fs : FS) (lock_path file_path : String) :
    Bool × Option String :=
  match lock_path with
  | _ =>
    if acquired then
      match fs.files file_path with
      | none => (true, none)
      | some content => (true, some content)
    else
      (false, some "")

/-- Embedding of `locked_write_file(lock_path, file_path, text, timeout)`
(utils.py lines 47-54): on acquisition the file is overwritten and `True`
returned; a `TimeoutError` is caught and `False` returned with the body
never entered.  OS-level write failures are fatal (out of model scope, as
the spec states). -/
def locked_write_file (acquired : Bool) (fs : FS) (lock_path file_path text : String) :
    Bool × FS :=
  match lock_path with
  | _ =>
    if acquired then
      (true, fs.writeFile file_path text)
    else
      (false, fs)

/-- Embedding of `locked_copy_file(lock_path, src_path, dst_path, timeout)`
(utils.py lines 61-67).  `shutil.copyfile` on a missing source raises
`FileNotFoundError`, which the `except TimeoutError` clause does not
catch: that escape is the `Except.error` case.  On timeout the body is
never entered and `(False, fs)` results. -/
def locked_copy_file (acquired : Bool) (fs : FS) (lock_path src_path dst_path : String) :
    Except Unit (Bool × FS) :=
  match lock_path with
  | _ =>
    if acquired then
      match fs.files src_path with
      | none => .error ()
      | some content => .ok (true, fs.writeFile dst_path content)
    else
      .ok (false, fs)

/-- State of a `FileLock` handle: whether this handle currently holds the
lock (`filelock`'s lock counter being positive). -/
structure FLockState where
  acquired : Bool

/-- `FileLock.release()`: drops the hold; a no-op when not held. -/
def flockRelease (_st : FLockState) : FLockState := ⟨false⟩

/-- Embedding of `file_lock_is_busy(lock_path)` (utils.py lines 70-79).
`acquireWithin t p` is the environment-decided outcome of
`flock.acquire(timeout=t, poll_intervall=p)` with times in milliseconds:
`false` means the bounded attempt timed out because another holder holds
the lock.  The `finally: flock.release()` runs on both paths, so the
returned handle state reflects the post-probe hold.  The code passes
`timeout=0.1, poll_intervall=0.05`, i.e. 100 ms polling every 50 ms. -/
def file_lock_is_busy (acquireWithin : Nat → Nat → Bool) (lock_path : String) :
    Bool × FLockState :=
  match lock_path with
  | _ =>
    if acquireWithin 100 50 then
      (false, flockRelease ⟨true⟩)
    else
      (true, flockRelease ⟨false⟩)

/-- CLAIM C1: `locked_read_file` returns `(false, empty)` when the lock
cannot be acquired within the wait policy, `(true, absent)` when acquired
and the file does not exist, and `(true, content)` when acquired and the
file exists — lock-timeout and missing-file are distinguishable. -/
theorem locked_read_file_cases (acquired : Bool) (fs : FS) (lock_path file_path : String) :
    (acquired = false →
      locked_read_file acquired fs lock_path file_path = (false, some "")) ∧
    (acquired = true → fs.files file_path = none →
      locked_read_file acquired fs lock_path file_path = (true, none)) ∧
    (∀ content, acquired = true → fs.files file_path = some content →
      locked_read_file acquired fs lock_path file_path = (true, some content)) := by
  refine ⟨fun ha => ?_, fun ha hf => ?_, fun content ha hf => ?_⟩
  · simp [locked_read_file, ha]
  · simp [locked_read_file, ha, hf]
  · simp [locked_read_file, ha, hf]

/-- Witness for C1: all three outcomes realized at concrete inputs. -/
theorem locked_read_file_cases_witness :
    locked_read_file false FS.empty "l" "f" = (false, some "") ∧
    locked_read_file true FS.empty "l" "f" = (true, none) ∧
    locked_read_file true (FS.empty.writeFile "f" "hello") "l" "f" =
      (true, some "hello") :=
  ⟨(locked_read_file_cases false FS.empty "l" "f").1 rfl,
   (locked_read_file_cases true FS.empty "l" "f").2.1 rfl rfl,
   (locked_read_file_cases true (FS.empty.writeFile "f" "hello") "l" "f").2.2
     "hello" rfl (by simp [FS.empty, FS.writeFile])⟩

/-- CLAIM C6: `locked_write_file` returns `true` exactly when the lock was
obtained within the wait policy, and in that case the target file's entire
content becomes the given text. -/
theorem locked_write_file_spec (acquired : Bool) (fs : FS) (lock_path file_path text : String) :
    (locked_write_file acquired fs lock_path file_path text).1 = acquired ∧
    (acquired = true →
      ((locked_write_file acquired fs lock_path file_path text).2).files file_path =
        some text) := by
  refine ⟨?_, fun ha => ?_⟩ <;> cases acquired <;>
    simp_all [locked_write_file, FS.writeFile]

/-- Witness for C6: a concrete acquired write stores the text. -/
theorem locked_write_file_spec_witness :
    (locked_write_file true FS.empty "l" "f" "body").1 = true ∧
    ((locked_write_file true FS.empty "l" "f" "body").2).files "f" = some "body" :=
  ⟨(locked_write_file_spec true FS.empty "l" "f" "body").1,
   (locked_write_file_spec true FS.empty "l" "f" "body").2 rfl⟩

/-- CLAIM C7: `file_lock_is_busy` returns `true` exactly when the short
bounded acquisition attempt (100 ms, polling every 50 ms) times out
because another holder holds the lock, `false` when the lock is free, and
on either outcome the handle does not hold the lock on return. -/
theorem file_lock_is_busy_spec (acquireWithin : Nat → Nat → Bool) (lock_path : String) :
    (file_lock_is_busy acquireWithin lock_path).1 = !acquireWithin 100 50 ∧
    ((file_lock_is_busy acquireWithin lock_path).2).acquired = false := by
  constructor <;> cases h : acquireWithin 100 50 <;>
    simp [file_lock_is_busy, flockRelease, h]

/-- CLAIM C10: when `locked_write_file` or `locked_copy_file` returns
`false` because lock acquisition timed out, the filesystem — in particular
the target file's content and existence — is left completely unchanged. -/
theorem locked_write_timeout_unchanged (acquired : Bool) (fs : FS)
    (lock_path file_path text src_path dst_path : String) :
    ((locked_write_file acquired fs lock_path file_path text).1 = false →
      (locked_write_file acquired fs lock_path file_path text).2 = fs) ∧
    (∀ fs', locked_copy_file acquired fs lock_path src_path dst_path =
        .ok (false, fs') → fs' = fs) := by
  constructor
  · intro h
    cases acquired
    · simp [locked_write_file]
    · simp [locked_write_file] at h
  · intro fs' h
    cases acquired
    · simp only [locked_copy_file, Bool.false_eq_true, if_false] at h
      exact (Prod.mk.injEq _ _ _ _ ▸ (Except.ok.injEq _ _).mp h).2.symm
    · cases hsrc : fs.files src_path <;>
        simp [locked_copy_file, hsrc] at h

/-- Witness for C10: a concrete timed-out write and copy leave the
filesystem untouched. -/
theorem locked_write_timeout_unchanged_witness :
    (locked_write_file false FS.empty "l" "f" "t").2 = FS.empty ∧
    FS.empty = FS.empty :=
  ⟨(locked_write_timeout_unchanged false FS.empty "l" "f" "t" "s" "d").1 rfl,
   (locked_write_timeout_unchanged false FS.empty "l" "f" "t" "s" "d").2
     FS.empty rfl⟩

/-- A scalar value of the structured-document (TOML) layer, covering the
flat integer/string documents this layer exchanges (spec section 6:
ordered key-value text format). -/
inductive TomlValue where
  | int (i : Int)
  | str (s : String)
deriving DecidableEq, Repr

/-- A flat structured document: an ordered list of key/value pairs. -/
def TomlDoc := List (String × TomlValue)

instance : DecidableEq TomlDoc := by
  unfold TomlDoc
  infer_instance

/-- Model of the external `toml.dumps` on flat documents: one
`key = value` line per entry, integers rendered in decimal, strings
double-quoted. -/
def tomlDumps (doc : TomlDoc) : String :=
  String.join (doc.map (fun kv =>
    match kv.2 with
    | .int i => kv.1 ++ " = " ++ toString i ++ "\n"
    | .str s => kv.1 ++ " = \x22" ++ s ++ "\x22\n"))

/-- Split a character list at every occurrence of the separator. -/
def splitOnChar (c : Char) : List Char → List (List Char)
  | [] => [[]]
  | x :: xs =>
    match splitOnChar c xs with
    | [] => [[]]
    | cur :: rest => if x = c then [] :: cur :: rest else (x :: cur) :: rest

/-- Strip leading and trailing spaces. -/
def trimSpaces (l : List Char) : List Char :=
  ((l.dropWhile (· = ' ')).reverse.dropWhile (· = ' ')).reverse

/-- Parse a nonempty run of decimal digits, accumulating left to right. -/
def parseDigits : List Char → Nat → Option Nat
  | [], acc => some acc
  | c :: cs, acc =>
    if c.isDigit then parseDigits cs (acc * 10 + (c.toNat - 48)) else none

/-- Parse an optionally negated decimal integer. -/
def parseInt (l : List Char) : Option Int :=
  match l with
  | '-' :: rest =>
    if rest = [] then none else (parseDigits rest 0).map (fun n => -(n : Int))
  | _ => if l = [] then none else (parseDigits l 0).map (fun n => (n : Int))

/-- Parse one `key = value` line of the flat TOML fragment. -/
def tomlParseLine (line : List Char) : Option (String × TomlValue) :=
  match splitOnChar '=' line with
  | [k, v] =>
    let key : String := ⟨trimSpaces k⟩
    match trimSpaces v with
    | '\x22' :: rest =>
      if rest ≠ [] ∧ rest.getLast? = some '\x22' then
        some (key, .str ⟨rest.dropLast⟩)
      else none
    | other => (parseInt other).map (fun i => (key, .int i))
  | _ => none

/-- Model of the external `toml.loads` on the flat fragment: parse each
nonempty line; `none` models a raised parse error. -/
def tomlLoads (text : String) : Option TomlDoc :=
  ((splitOnChar '\x0a' text.data).filter (· ≠ [])).mapM tomlParseLine

/-- Embedding of `locked_read_toml(lock_path, file_path, timeout)`
(utils.py lines 39-44): reads text under the lock, then parses it when the
status is `True` and the text is not `None`.  The outer `Option` models a
parse exception escaping to the caller (`toml.loads` raising). -/
def locked_read_toml (acquired : Bool) (fs : FS) (lock_path file_path : String) :
    Option (Bool × Option TomlDoc) :=
  match locked_read_file acquired fs lock_path file_path with
  | (status, text) =>
    if status then
      match text with
      | some t =>
        match tomlLoads t with
        | some struct => some (status, some struct)
        | none => none
      | none => some (status, none)
    else
      some (status, none)

/-- Embedding of `locked_write_toml(lock_path, file_path, struct, timeout)`
(utils.py lines 57-58): serialize and delegate to `locked_write_file`. -/
def locked_write_toml (acquired : Bool) (fs : FS) (lock_path file_path : String)
    (struct : TomlDoc) : Bool × FS :=
  locked_write_file acquired fs lock_path file_path (tomlDumps struct)

/-- CLAIM C5: end-to-end scenario on an uncontended lock: with the
StateFile initially absent, `locked_read_toml` returns `(true, absent)`;
`locked_write_toml` of `{"a": 1}` returns `true`; a subsequent
`locked_read_toml` returns `(true, {"a": 1})`. -/
theorem locked_toml_write_read_scenario :
    locked_read_toml true FS.empty "x.lock" "x.doc" = some (true, none) ∧
    (locked_write_toml true FS.empty "x.lock" "x.doc" [("a", .int 1)]).1 = true ∧
    locked_read_toml true
        (locked_write_toml true FS.empty "x.lock" "x.doc" [("a", .int 1)]).2
        "x.lock" "x.doc" =
      some (true, some [("a", .int 1)]) := by
  refine ⟨rfl, rfl, ?_⟩
  decide

/-- Effects visible around one append call of the streaming write sink:
acquiring the lock, invoking the wrapped `write_func` (its result of type
`α` recorded), releasing the lock. -/
inductive LockEvent (α : Type) where
  | acquire (lock_path : String)
  | invoke (result : α)
  | release (lock_path : String)
deriving DecidableEq

/-- Embedding of the `LockedFileLikeObject` dataclass (utils.py lines
82-90): a lock path plus the wrapped write function. -/
structure LockedFileLikeObject (α : Type) where
  lock_path : String
  write_func : String → α

/-- Embedding of `LockedFileLikeObject.write(s)` (utils.py lines 87-90):
`with FileLock(self.lock_path): self.write_func(s)` then `return 0`.  The
event trace records the acquisition, the single `write_func` invocation
made while the lock is held, and the release performed by the `with`
block before returning; the returned `int` is the literal `0`. -/
def LockedFileLikeObject.write {α : Type} (o : LockedFileLikeObject α) (s : String) :
    List (LockEvent α) × Int :=
  ([.acquire o.lock_path, .invoke (o.write_func s), .release o.lock_path], 0)

/-- Number of locks held after processing a trace (each acquire adds one,
each release removes one, invocations leave it unchanged). -/
def lockDepth {α : Type} (tr : List (LockEvent α)) : Int :=
  (tr.map (fun e =>
    match e with
    | .acquire _ => (1 : Int)
    | .release _ => -1
    | .invoke _ => 0)).sum

/-- The trace of a sequence of append calls on the sink: each call's trace
in order. -/
def writeTraces {α : Type} (o : LockedFileLikeObject α) (ss : List String) :
    List (LockEvent α) :=
  (ss.map (fun s => (o.write s).1)).flatten

/-- Count of `write_func` invocations in a trace. -/
def invokeCount {α : Type} (tr : List (LockEvent α)) : Nat :=
  tr.countP (fun e =>
    match e with
    | .invoke _ => true
    | _ => false)


/-- Net lock depth is additive over trace concatenation. -/
theorem lockDepth_append {α : Type} (a b : List (LockEvent α)) :
    lockDepth (a ++ b) = lockDepth a + lockDepth b := by
  simp [lockDepth]

/-- CLAIM C8: each individual `write` call of the streaming sink acquires
the lock, performs exactly one invocation of the underlying write function
while holding it, and releases before returning; across any sequence of
append calls the lock is back to unheld at every call boundary, i.e. it is
never held across multiple append calls of one logical write. -/
theorem lockedFileLikeObject_write_locking {α : Type} (o : LockedFileLikeObject α)
    (s : String) (ss : List String) :
    (o.write s).1 =
      [.acquire o.lock_path, .invoke (o.write_func s), .release o.lock_path] ∧
    invokeCount (o.write s).1 = 1 ∧
    lockDepth (o.write s).1 = 0 ∧
    (∀ n, lockDepth (writeTraces o (ss.take n)) = 0) := by
  refine ⟨rfl, rfl, by simp [LockedFileLikeObject.write, lockDepth], fun n => ?_⟩
  induction ss generalizing n with
  | nil => simp [writeTraces, lockDepth]
  | cons a as ih =>
    cases n with
    | zero => simp [writeTraces, lockDepth]
    | succ m =>
      rw [List.take_succ_cons]
      have hsplit : writeTraces o (a :: as.take m) =
          (o.write a).1 ++ writeTraces o (as.take m) := by
        simp [writeTraces]
      rw [hsplit, lockDepth_append, ih m]
      simp [LockedFileLikeObject.write, lockDepth]

/-- CLAIM C9: `LockedFileLikeObject.write` returns the literal `0` for
every input string, regardless of the string's length — it does not report
the number of characters written. -/
theorem lockedFileLikeObject_write_returns_zero {α : Type}
    (o : LockedFileLikeObject α) (s : String) :
    (o.write s).2 = 0 :=
  rfl

/-- Model of a `hashlib.sha1()` accumulator: `update` is absorption, so
the state is the byte sequence absorbed so far; `hexdigest()` is an
uninterpreted digest function applied to the absorbed sequence.  Bytes are
`Nat` values. -/
def sha1Update (st : List Nat) (block : List Nat) : List Nat :=
  st ++ block

/-- The successive results of `fin.read(65536)` on a file with the given
bytes: fixed 64 KiB blocks until exhausted (utils.py line 101). -/
def fileBlocks (l : List Nat) : List (List Nat) :=
  if h : l = [] then [] else l.take 65536 :: fileBlocks (l.drop 65536)
termination_by l.length
decreasing_by
  simp only [List.length_drop]
  have hpos : 0 < l.length := List.length_pos.mpr h
  omega

/-- Embedding of `update_hash_algo_with_file(path, hash_alog)` (utils.py
lines 98-102): stream the file's bytes into the accumulator in 64 KiB
blocks. -/
def update_hash_algo_with_file (content : List Nat) (hash_alog : List Nat) :
    List Nat :=
  (fileBlocks content).foldl sha1Update hash_alog

/-- `s.encode()` for the ASCII header text: the code points as bytes. -/
def asciiBytes (s : String) : List Nat :=
  s.data.map Char.toNat

/-- Embedding of `git_hash_sha(path)` (utils.py lines 105-111): absorb the
header `"blob " + decimal(size) + NUL`, then the file's bytes in 64 KiB
blocks, and finalize.  `sha1Hex` is the external `hexdigest()` primitive;
`content` is the file's raw bytes, so `os.path.getsize` is its length. -/
def git_hash_sha (sha1Hex : List Nat → String) (content : List Nat) : String :=
  let size := content.length
  let afterHeader := sha1Update [] (asciiBytes ("blob " ++ toString size) ++ [0])
  sha1Hex (update_hash_algo_with_file content afterHeader)

/-- A 40-character string of lowercase hexadecimal digits. -/
def isHexDigest40 (s : String) : Bool :=
  s.length = 40 && s.data.all (fun c => c.isDigit || ('a' ≤ c && c ≤ 'f'))

/-- Streaming a byte sequence through the accumulator in 64 KiB blocks
absorbs exactly that sequence, whatever was absorbed before. -/
theorem update_hash_algo_with_file_eq (content : List Nat) (st : List Nat) :
    update_hash_algo_with_file content st = st ++ content := by
  have H : ∀ n (l : List Nat), l.length ≤ n → ∀ st,
      (fileBlocks l).foldl sha1Update st = st ++ l := by
    intro n
    induction n with
    | zero =>
      intro l hlen st
      have hnil : l = [] := List.eq_nil_of_length_eq_zero (Nat.le_zero.mp hlen)
      subst hnil
      rw [fileBlocks]
      simp
    | succ n ih =>
      intro l hlen st
      rw [fileBlocks]
      by_cases h : l = []
      · rw [dif_pos h]
        simp [h]
      · rw [dif_neg h]
        rw [List.foldl_cons,
          ih (l.drop 65536) (by
            have hpos : 0 < l.length := List.length_pos.mpr h
            simp only [List.length_drop]
            omega)]
        simp only [sha1Update, List.append_assoc, List.take_append_drop]
  exact H content.length content le_rfl st

/-- CLAIM C4: `git_hash_sha` equals the SHA-1 digest of the bytes
`"blob " + decimal(byte size) + NUL` followed by the file's raw bytes
(streamed in 64 KiB blocks changing nothing), rendered as the external
`hexdigest` does — a 40-character lowercase hexadecimal string whenever
`hexdigest` produces such strings — and it is deterministic: the same
unchanged content hashes to an identical digest. -/
theorem git_hash_sha_spec (sha1Hex : List Nat → String) (content content2 : List Nat)
    (hhex : ∀ bs, isHexDigest40 (sha1Hex bs) = true) (hsame : content = content2) :
    git_hash_sha sha1Hex content =
      sha1Hex (asciiBytes ("blob " ++ toString content.length) ++ [0] ++ content) ∧
    isHexDigest40 (git_hash_sha sha1Hex content) = true ∧
    git_hash_sha sha1Hex content = git_hash_sha sha1Hex content2 := by
  have hmain : git_hash_sha sha1Hex content =
      sha1Hex (asciiBytes ("blob " ++ toString content.length) ++ [0] ++ content) := by
    show sha1Hex (update_hash_algo_with_file content
        (sha1Update [] (asciiBytes ("blob " ++ toString content.length) ++ [0]))) = _
    rw [update_hash_algo_with_file_eq]
    simp [sha1Update, List.append_assoc]
  exact ⟨hmain, hmain ▸ hhex _, hsame ▸ rfl⟩

/-- Witness for C4 at a concrete digest function and concrete file
bytes. -/
theorem git_hash_sha_spec_witness :
    git_hash_sha (fun _ => "0123456789abcdef0123456789abcdef01234567") [7, 8, 9] =
      (fun _ => "0123456789abcdef0123456789abcdef01234567")
        (asciiBytes ("blob " ++ toString ([7, 8, 9] : List Nat).length) ++ [0] ++
          [7, 8, 9]) ∧
    isHexDigest40
      (git_hash_sha (fun _ => "0123456789abcdef0123456789abcdef01234567")
        [7, 8, 9]) = true ∧
    git_hash_sha (fun _ => "0123456789abcdef0123456789abcdef01234567") [7, 8, 9] =
      git_hash_sha (fun _ => "0123456789abcdef0123456789abcdef01234567") [7, 8, 9] :=
  git_hash_sha_spec (fun _ => "0123456789abcdef0123456789abcdef01234567")
    [7, 8, 9] [7, 8, 9]
    (fun _ =>
      (by decide :
        isHexDigest40 "0123456789abcdef0123456789abcdef01234567" = true))
    rfl

/-- The external libraries the Secret Codec stacks (utils.py lines
124-141): `json`, `str.encode`/`bytes.decode`, `zlib`, `Fernet` keyed by
the process-wide `_FERNET_SECRET_KEY`, and `base64`.  Fallible stages
return `Option` (a `none` models the exception the Python stage raises,
caught by the enclosing `try`); stages that do not fail in practice are
total. -/
structure CodecLib where
  Obj : Type
  Bytes : Type
  jsonDumps : Obj → Option String
  jsonLoads : String → Option Obj
  strEncode : String → Bytes
  bytesDecode : Bytes → Option String
  compress : Bytes → Bytes
  decompress : Bytes → Option Bytes
  fernetEncrypt : Bytes → Bytes
  fernetDecrypt : Bytes → Option Bytes
  b64encode : Bytes → Bytes
  b64decode : Bytes → Option Bytes

/-- Embedding of `encrypt_object_to_base64(obj)` (utils.py lines 124-131):
serialize, compress, encrypt under the process key, base64-encode, decode
to text; any stage failure is caught and `None` returned. -/
def encrypt_object_to_base64 (L : CodecLib) (obj : L.Obj) : Option String :=
  match L.jsonDumps obj with
  | none => none
  | some dumped =>
    let compressed_dumped := L.compress (L.strEncode dumped)
    let data := L.fernetEncrypt compressed_dumped
    L.bytesDecode (L.b64encode data)

/-- Embedding of `decrypt_base64_to_object(text)` (utils.py lines
134-141): base64-decode, decrypt under the process key, decompress,
decode, deserialize; any stage failure is caught and `None` returned. -/
def decrypt_base64_to_object (L : CodecLib) (text : String) : Option L.Obj :=
  match L.b64decode (L.strEncode text) with
  | none => none
  | some base64_decoded =>
    match L.fernetDecrypt base64_decoded with
    | none => none
    | some compressed_dumped =>
      match L.decompress compressed_dumped with
      | none => none
      | some dumped =>
        match L.bytesDecode dumped with
        | none => none
        | some s => L.jsonLoads s

/-- The documented laws of the stacked libraries within one process
lifetime (the same `_FERNET_SECRET_KEY` on both sides): each decoding
stage inverts its encoding stage. -/
structure CodecLib.SameProcess (L : CodecLib) : Prop where
  json_roundtrip : ∀ o s, L.jsonDumps o = some s → L.jsonLoads s = some o
  b64_roundtrip : ∀ p t, L.bytesDecode (L.b64encode p) = some t →
    L.b64decode (L.strEncode t) = some p
  fernet_roundtrip : ∀ c, L.fernetDecrypt (L.fernetEncrypt c) = some c
  zlib_roundtrip : ∀ d, L.decompress (L.compress d) = some d
  utf8_roundtrip : ∀ s, L.bytesDecode (L.strEncode s) = some s

/-- CLAIM C2: within the same process lifetime (the same ephemeral key),
`decrypt_base64_to_object` inverts `encrypt_object_to_base64` on every
value the serializer accepts: whenever encryption succeeds with some text,
decrypting that text returns the original value. -/
theorem encrypt_decrypt_roundtrip (L : CodecLib) (hL : L.SameProcess)
    (obj : L.Obj) (text : String)
    (henc : encrypt_object_to_base64 L obj = some text) :
    decrypt_base64_to_object L text = some obj := by
  unfold encrypt_object_to_base64 at henc
  cases hdump : L.jsonDumps obj with
  | none => rw [hdump] at henc; exact absurd henc (by simp)
  | some dumped =>
    rw [hdump] at henc
    simp only at henc
    simp only [decrypt_base64_to_object, hL.b64_roundtrip _ _ henc,
      hL.fernet_roundtrip, hL.zlib_roundtrip, hL.utf8_roundtrip]
    exact hL.json_roundtrip _ _ hdump

/-- A concrete lawful codec library instance: objects are naturals
serialized in unary, bytes are strings, and each encoding stage prepends a
distinct marker character that its decoding stage strips. -/
def unaryCodecLib : CodecLib where
  Obj := Nat
  Bytes := String
  jsonDumps n := some ⟨List.replicate n 'a'⟩
  jsonLoads s := some s.data.length
  strEncode s := s
  bytesDecode s := some s
  compress s := ⟨'z' :: s.data⟩
  decompress s :=
    match s.data with
    | 'z' :: rest => some ⟨rest⟩
    | _ => none
  fernetEncrypt s := ⟨'f' :: s.data⟩
  fernetDecrypt s :=
    match s.data with
    | 'f' :: rest => some ⟨rest⟩
    | _ => none
  b64encode s := ⟨'b' :: s.data⟩
  b64decode s :=
    match s.data with
    | 'b' :: rest => some ⟨rest⟩
    | _ => none

/-- The concrete instance satisfies the same-process laws. -/
theorem unaryCodecLib_sameProcess : unaryCodecLib.SameProcess := by
  refine ⟨?_, ?_, ?_, ?_, ?_⟩
  · intro o s h
    simp only [unaryCodecLib, Option.some.injEq] at h
    subst h
    simp [unaryCodecLib]
  · intro p t h
    simp only [unaryCodecLib, Option.some.injEq] at h
    subst h
    rfl
  · intro c
    rfl
  · intro d
    rfl
  · intro s
    rfl

/-- Witness for C2: a concrete successful encryption, inverted by
decryption. -/
theorem encrypt_decrypt_roundtrip_witness :
    encrypt_object_to_base64 unaryCodecLib (2 : Nat) = some "bfzaa" ∧
    decrypt_base64_to_object unaryCodecLib "bfzaa" = some (2 : Nat) :=
  ⟨by rfl,
   encrypt_decrypt_roundtrip unaryCodecLib unaryCodecLib_sameProcess (2 : Nat)
     "bfzaa" (by rfl)⟩

/-- CLAIM C3: both codec operations are total (the embedding returns a
value for every input, modelling that no exception escapes the enclosing
`try`), and a failure at any stage yields the `none` sentinel: for
decryption a failing base64 decode, decryption/authentication, 
decompression, byte decode, or deserialization; for encryption a failing
serialization or final decode. -/
theorem codec_failure_yields_none (L : CodecLib) (text : String) (obj : L.Obj) :
    (decrypt_base64_to_object L text = none ∨
      ∃ v, decrypt_base64_to_object L text = some v) ∧
    (L.b64decode (L.strEncode text) = none →
      decrypt_base64_to_object L text = none) ∧
    (∀ d, L.b64decode (L.strEncode text) = some d → L.fernetDecrypt d = none →
      decrypt_base64_to_object L text = none) ∧
    (∀ d c, L.b64decode (L.strEncode text) = some d →
      L.fernetDecrypt d = some c → L.decompress c = none →
      decrypt_base64_to_object L text = none) ∧
    (∀ d c u, L.b64decode (L.strEncode text) = some d →
      L.fernetDecrypt d = some c → L.decompress c = some u →
      L.bytesDecode u = none →
      decrypt_base64_to_object L text = none) ∧
    (∀ d c u s, L.b64decode (L.strEncode text) = some d →
      L.fernetDecrypt d = some c → L.decompress c = some u →
      L.bytesDecode u = some s → L.jsonLoads s = none →
      decrypt_base64_to_object L text = none) ∧
    (L.jsonDumps obj = none → encrypt_object_to_base64 L obj = none) ∧
    (∀ dumped, L.jsonDumps obj = some dumped →
      L.bytesDecode
        (L.b64encode (L.fernetEncrypt (L.compress (L.strEncode dumped)))) =
        none →
      encrypt_object_to_base64 L obj = none) := by
  refine ⟨?_, fun h1 => ?_, fun d h1 h2 => ?_, fun d c h1 h2 h3 => ?_,
    fun d c u h1 h2 h3 h4 => ?_, fun d c u s h1 h2 h3 h4 h5 => ?_,
    fun h6 => ?_, fun dumped h6 h7 => ?_⟩
  · cases h : decrypt_base64_to_object L text with
    | none => exact Or.inl rfl
    | some v => exact Or.inr ⟨v, rfl⟩
  · simp [decrypt_base64_to_object, h1]
  · simp [decrypt_base64_to_object, h1, h2]
  · simp [decrypt_base64_to_object, h1, h2, h3]
  · simp [decrypt_base64_to_object, h1, h2, h3, h4]
  · simp [decrypt_base64_to_object, h1, h2, h3, h4, h5]
  · simp [encrypt_object_to_base64, h6]
  · simp [encrypt_object_to_base64, h6, h7]

/-- A codec library instance in which every fallible stage fails on a
designated input, exercising each failure branch. -/
def faultyCodecLib : CodecLib where
  Obj := Nat
  Bytes := String
  jsonDumps n := if n = 0 then none else some "U"
  jsonLoads _ := none
  strEncode s := s
  bytesDecode s := if s = "U" then none else some s
  compress s := s
  decompress s := if s = "Z" then none else some s
  fernetEncrypt s := s
  fernetDecrypt s := if s = "F" then none else some s
  b64encode s := s
  b64decode s := if s = "B" then none else some s

/-- Witness for C3: every stage-failure branch realized at concrete
inputs of the faulty instance. -/
theorem codec_failure_yields_none_witness :
    decrypt_base64_to_object faultyCodecLib "B" = none ∧
    decrypt_base64_to_object faultyCodecLib "F" = none ∧
    decrypt_base64_to_object faultyCodecLib "Z" = none ∧
    decrypt_base64_to_object faultyCodecLib "U" = none ∧
    decrypt_base64_to_object faultyCodecLib "J" = none ∧
    encrypt_object_to_base64 faultyCodecLib (0 : Nat) = none ∧
    encrypt_object_to_base64 faultyCodecLib (1 : Nat) = none :=
  ⟨(codec_failure_yields_none faultyCodecLib "B" (0 : Nat)).2.1 (by rfl),
   (codec_failure_yields_none faultyCodecLib "F" (0 : Nat)).2.2.1 "F"
     (by rfl) (by rfl),
   (codec_failure_yields_none faultyCodecLib "Z" (0 : Nat)).2.2.2.1 "Z" "Z"
     (by rfl) (by rfl) (by rfl),
   (codec_failure_yields_none faultyCodecLib "U" (0 : Nat)).2.2.2.2.1 "U" "U" "U"
     (by rfl) (by rfl) (by rfl) (by rfl),
   (codec_failure_yields_none faultyCodecLib "J" (0 : Nat)).2.2.2.2.2.1 "J" "J"
     "J" "J" (by rfl) (by rfl) (by rfl) (by rfl) (by rfl),
   (codec_failure_yields_none faultyCodecLib "J" (0 : Nat)).2.2.2.2.2.2.1
     (by rfl),
   (codec_failure_yields_none faultyCodecLib "J" (1 : Nat)).2.2.2.2.2.2.2 "U"
     (by rfl) (by rfl)⟩
